import Mathlib

/-!
Shallow embedding of the `toggl-track-skill` Python library
(`src/toggl_track/...`): JSON/Python values, the exception taxonomy,
the rate limiter, the HTTP client core, data models, validators,
time-entry endpoints and the pagination helper, together with theorems
settling the specification claims.

Clock readings (`time.time()`) are modelled as rationals passed
explicitly; the HTTP transport is modelled as a function from the index
of the request to the response, with a log of the requests actually
issued.
-/

/-- A Python/JSON value as it flows through the library: JSON scalars,
arrays and objects (Python dicts with string keys). `null` models Python
`None`. -/
inductive Json where
  | null
  | bool (b : Bool)
  | int (n : Int)
  | str (s : String)
  | arr (xs : List Json)
  | obj (kvs : List (String × Json))

/-- Python truthiness of a value: `None`, `False`, `0`, `""`, `[]` and
`{}` are falsy, everything else truthy. -/
def Json.truthy : Json → Bool
  | .null => false
  | .bool b => b
  | .int n => n != 0
  | .str s => !(s == "")
  | .arr xs => !xs.isEmpty
  | .obj kvs => !kvs.isEmpty

/-- A Python dict with string keys, as an association list (first binding
wins, as keys of a Python dict are unique). -/
abbrev JsonDict := List (String × Json)

/-- Python `d.get(k)` restricted to presence: `some v` when the key is
present (even with value `None`), `none` when absent. -/
def dictGet (d : JsonDict) (k : String) : Option Json :=
  d.lookup k

/-- Python `d.get(k, default)`. -/
def dictGetD (d : JsonDict) (k : String) (default : Json) : Json :=
  (d.lookup k).getD default

/-- The library's typed error taxonomy (`exceptions.py`): every
constructor carries the message, the HTTP status code and the decoded
response body, mirroring `TogglError.__init__`; `rateLimit` and `quota`
carry their extra fields. -/
inductive TogglException where
  | base (message : Json) (statusCode : Option Int) (responseBody : Json)
  | auth (message : Json) (statusCode : Option Int) (responseBody : Json)
  | rateLimit (message : Json) (retryAfter : Option Int) (statusCode : Option Int)
      (responseBody : Json)
  | quota (message : Json) (quotaRemaining : Option Int) (quotaResetsIn : Option Int)
      (statusCode : Option Int) (responseBody : Json)
  | notFound (message : Json) (statusCode : Option Int) (responseBody : Json)
  | validation (message : Json) (statusCode : Option Int) (responseBody : Json)
  | server (message : Json) (statusCode : Option Int) (responseBody : Json)

/-- The `status_code` attribute of a `TogglError`. -/
def TogglException.statusCodeOf : TogglException → Option Int
  | .base _ sc _ => sc
  | .auth _ sc _ => sc
  | .rateLimit _ _ sc _ => sc
  | .quota _ _ _ sc _ => sc
  | .notFound _ sc _ => sc
  | .validation _ sc _ => sc
  | .server _ sc _ => sc

/-- The `response_body` attribute of a `TogglError`. -/
def TogglException.responseBodyOf : TogglException → Json
  | .base _ _ b => b
  | .auth _ _ b => b
  | .rateLimit _ _ _ b => b
  | .quota _ _ _ _ b => b
  | .notFound _ _ b => b
  | .validation _ _ b => b
  | .server _ _ b => b

/-- A Python exception as surfaced by the embedded code: one of the
library's `TogglError` subclasses, or a built-in exception
(`ValueError` from `int(...)` and the validators, `AttributeError` from
attribute access on a value of the wrong type, `TypeError` from
comparisons/iteration on ill-typed values, and the decode error raised
by `response.json()` on a non-JSON body). -/
inductive PyExc where
  | toggl (e : TogglException)
  | valueError
  | attributeError
  | typeError
  | jsonDecodeError

/-- The numeric value of a decimal digit character. -/
def digitVal? (c : Char) : Option Nat :=
  if 48 ≤ c.toNat ∧ c.toNat ≤ 57 then some (c.toNat - 48) else none

/-- Reads a non-empty digit string as a natural number (the accumulator
carries the prefix already read). -/
def natOfDigitsAux : List Char → Nat → Option Nat
  | [], acc => some acc
  | c :: cs, acc =>
    match digitVal? c with
    | some d => natOfDigitsAux cs (acc * 10 + d)
    | none => none

/-- Decimal integer syntax accepted by Python `int(s)`, modelled for
canonical strings: an optional minus sign followed by digits. -/
def pyStrToInt (s : String) : Option Int :=
  match s.data with
  | [] => none
  | '-' :: cs => if cs = [] then none else (natOfDigitsAux cs 0).map (fun n => -(n : Int))
  | cs => (natOfDigitsAux cs 0).map (fun n => (n : Int))

/-- Python `int(s)` on a string: the decimal value, or `ValueError`. -/
def pyIntOfString (s : String) : Except PyExc Int :=
  match pyStrToInt s with
  | some n => .ok n
  | none => .error .valueError

/-- An HTTP response as seen through `requests`: status code, headers,
raw text body, and `jsonBody = some j` exactly when the body decodes as
JSON `j` (so `response.json()` succeeds and returns `j`). -/
structure HttpResponse where
  statusCode : Int
  headers : List (String × String)
  text : String
  jsonBody : Option Json

/-- Embeds `requests.Response.ok`: true iff the status code is below 400. -/
def HttpResponse.respOk (r : HttpResponse) : Bool :=
  decide (r.statusCode < 400)

/-- Embeds `headers.get(name)` on the response headers. -/
def headerGet (hs : List (String × String)) (k : String) : Option String :=
  hs.lookup k

/-- Body decoding in `TogglClient._handle_error`: `response.json()`,
falling back to `{"message": response.text}` when decoding fails. -/
def decodeErrorBody (r : HttpResponse) : Json :=
  match r.jsonBody with
  | some j => j
  | none => .obj [("message", .str r.text)]

/-- Embeds `body.get("message", body.get("error", "Unknown error"))` in
`_handle_error`; raises `AttributeError` when the decoded body is not a
dict (`.get` on a non-dict value). -/
def errorMessage (body : Json) : Except PyExc Json :=
  match body with
  | .obj kvs => .ok (dictGetD kvs "message" (dictGetD kvs "error" (.str "Unknown error")))
  | _ => .error .attributeError

/-- Embeds `int(h) if h else None` applied to an optional header value. -/
def optHeaderInt (h : Option String) : Except PyExc (Option Int) :=
  match h with
  | some s => if s = "" then .ok none else (pyIntOfString s).map some
  | none => .ok none

/-- Embeds `TogglClient._handle_error`: the exception it raises for an error
response, including the built-in exceptions that escape it when the
decoded body is not a dict or when a quota / Retry-After header is not
an integer. -/
def handleError (r : HttpResponse) : PyExc :=
  match errorMessage (decodeErrorBody r) with
  | .error e => e
  | .ok message =>
    if r.statusCode = 400 then
      .toggl (.validation message (some r.statusCode) (decodeErrorBody r))
    else if r.statusCode = 401 then
      .toggl (.auth message (some r.statusCode) (decodeErrorBody r))
    else if r.statusCode = 402 then
      match optHeaderInt (headerGet r.headers "X-Toggl-Quota-Remaining"),
            optHeaderInt (headerGet r.headers "X-Toggl-Quota-Resets-In") with
      | .error e, _ => e
      | .ok _, .error e => e
      | .ok qr, .ok qrs =>
        .toggl (.quota message qr qrs (some r.statusCode) (decodeErrorBody r))
    else if r.statusCode = 403 then
      .toggl (.auth message (some r.statusCode) (decodeErrorBody r))
    else if r.statusCode = 404 then
      .toggl (.notFound message (some r.statusCode) (decodeErrorBody r))
    else if r.statusCode = 429 then
      match optHeaderInt (headerGet r.headers "Retry-After") with
      | .error e => e
      | .ok ra => .toggl (.rateLimit message ra (some r.statusCode) (decodeErrorBody r))
    else if 500 ≤ r.statusCode then
      .toggl (.server message (some r.statusCode) (decodeErrorBody r))
    else .toggl (.base message (some r.statusCode) (decodeErrorBody r))

/-- Embeds `RateLimiter` state (`utils/rate_limit.py`); clock readings are in
seconds, modelled as rationals. -/
structure RateLimiter where
  minInterval : ℚ
  lastRequestTime : Option ℚ
  quotaRemaining : Option Int
  quotaResetsIn : Option Int

/-- Embeds `RateLimiter.__init__(requests_per_second)`. -/
def RateLimiter.mkLimiter (requestsPerSecond : ℚ) : RateLimiter :=
  { minInterval := 1 / requestsPerSecond
    lastRequestTime := none
    quotaRemaining := none
    quotaResetsIn := none }

/-- Embeds `RateLimiter.wait_if_needed`, with the ambient clock passed
explicitly: given the current time `now`, returns the time slept and the
new state. `last_request_time` is re-read from the clock after
sleeping, so it equals `now + slept` under an ideal clock. -/
def RateLimiter.waitIfNeeded (rl : RateLimiter) (now : ℚ) : ℚ × RateLimiter :=
  let slept :=
    match rl.lastRequestTime with
    | none => 0
    | some t =>
      let elapsed := now - t
      if elapsed < rl.minInterval then rl.minInterval - elapsed else 0
  (slept, { rl with lastRequestTime := some (now + slept) })

/-- Second half of `RateLimiter.update_from_headers`: the
`X-Toggl-Quota-Resets-In` header. -/
def RateLimiter.updateQuotaResets (rl : RateLimiter) (headers : List (String × String)) :
    RateLimiter × Option PyExc :=
  match headerGet headers "X-Toggl-Quota-Resets-In" with
  | some s =>
    if s = "" then (rl, none)
    else
      match pyIntOfString s with
      | .error e => (rl, some e)
      | .ok n => ({ rl with quotaResetsIn := some n }, none)
  | none => (rl, none)

/-- Embeds `RateLimiter.update_from_headers`: reads the two quota headers in
order, assigning each field from `int(value)` when the value is truthy;
returns the state after the assignments that executed together with the
exception, if any, raised by `int(...)` (an exception aborts the rest of
the method, as in Python). -/
def RateLimiter.updateFromHeaders (rl : RateLimiter) (headers : List (String × String)) :
    RateLimiter × Option PyExc :=
  match headerGet headers "X-Toggl-Quota-Remaining" with
  | some s =>
    if s = "" then rl.updateQuotaResets headers
    else
      match pyIntOfString s with
      | .error e => (rl, some e)
      | .ok n => RateLimiter.updateQuotaResets { rl with quotaRemaining := some n } headers
  | none => rl.updateQuotaResets headers

/-- Embeds `clean_params` (`utils/validators.py`): removes `None`-valued
entries from a dict. -/
def cleanParams (params : JsonDict) : JsonDict :=
  params.filter (fun kv => match kv.2 with | Json.null => false | _ => true)

/-- Embeds `TogglClient.BASE_URL`. -/
def BASE_URL : String := "https://api.track.toggl.com/api/v9"

/-- URL building in `TogglClient._request`. -/
def buildUrl (endpoint : String) : String :=
  if endpoint.startsWith "http" then endpoint else BASE_URL ++ endpoint

/-- Embeds `clean_params(x) if x else None` in `_request`, on the dynamic value
actually passed: a falsy value becomes `None`; a truthy non-dict makes
`params.items()` raise `AttributeError` (lists have no `.items`). -/
def cleanIfTruthy (v : Json) : Except PyExc Json :=
  if v.truthy then
    match v with
    | .obj kvs => .ok (.obj (cleanParams kvs))
    | _ => .error .attributeError
  else .ok .null

/-- One entry of the transport log: a request actually handed to
`requests.Session.request`. -/
structure SentRequest where
  method : String
  url : String
  params : Json
  data : Json

/-- The mutable client state `_request` touches. -/
structure ClientState where
  rateLimiter : RateLimiter

/-- The tail of `TogglClient._request` after the transport returned
`resp`: quota-header update (whose `int(...)` exception propagates),
error handling for a non-ok status, and body decoding (`response.json()`
for a non-empty body, `None` otherwise). `rl1` is the rate limiter
after `wait_if_needed` and `log1` the log with the issued request. -/
def finishRequest (resp : HttpResponse) (rl1 : RateLimiter)
    (log1 : List SentRequest) :
    Except PyExc (Option Json) × ClientState × List SentRequest :=
  match (rl1.updateFromHeaders resp.headers).2 with
  | some e => (.error e, ⟨(rl1.updateFromHeaders resp.headers).1⟩, log1)
  | none =>
    if resp.respOk then
      if resp.text = "" then (.ok none, ⟨(rl1.updateFromHeaders resp.headers).1⟩, log1)
      else
        match resp.jsonBody with
        | some j => (.ok (some j), ⟨(rl1.updateFromHeaders resp.headers).1⟩, log1)
        | none => (.error .jsonDecodeError, ⟨(rl1.updateFromHeaders resp.headers).1⟩, log1)
    else (.error (handleError resp), ⟨(rl1.updateFromHeaders resp.headers).1⟩, log1)

/-- Embeds `TogglClient._request`, with the transport abstracted: `transport i`
is the response the session returns to the `i`-th request it is handed,
and `log` records the requests actually issued. Control flow mirrors
the source: rate-limit wait, URL build, parameter cleaning on the
dynamic values (which can raise before any request is issued), the
single transport call, then `finishRequest`. -/
def TogglClient.requestFn (st : ClientState) (now : ℚ)
    (transport : Nat → HttpResponse) (log : List SentRequest)
    (method endpoint : String) (params data : Json) :
    Except PyExc (Option Json) × ClientState × List SentRequest :=
  match cleanIfTruthy params, cleanIfTruthy data with
  | .error e, _ => (.error e, ⟨(st.rateLimiter.waitIfNeeded now).2⟩, log)
  | .ok _, .error e => (.error e, ⟨(st.rateLimiter.waitIfNeeded now).2⟩, log)
  | .ok params1, .ok data1 =>
    finishRequest (transport log.length) (st.rateLimiter.waitIfNeeded now).2
      (log ++ [⟨method, buildUrl endpoint, params1, data1⟩])

/-- Embeds `TimeEntry` (`models.py`): fields hold the raw Python values, as the
dataclass performs no runtime type checks. -/
structure TimeEntry where
  id : Json
  workspace_id : Json
  description : Json
  project_id : Json
  task_id : Json
  user_id : Json
  start : Json
  stop : Json
  duration : Json
  billable : Json
  tags : Json
  tag_ids : Json
  project_name : Json
  client_name : Json
  task_name : Json
  created_with : Json
  at_ts : Json

/-- Embeds `x or []` in Python: `x` when truthy, else the empty list. -/
def orEmptyList (v : Json) : Json :=
  if v.truthy then v else .arr []

/-- Embeds `TimeEntry.from_dict`. -/
def TimeEntry.from_dict (data : JsonDict) : TimeEntry :=
  { id := dictGetD data "id" .null
    workspace_id := dictGetD data "workspace_id" (dictGetD data "wid" (.int 0))
    description := dictGetD data "description" .null
    project_id := dictGetD data "project_id" (dictGetD data "pid" .null)
    task_id := dictGetD data "task_id" (dictGetD data "tid" .null)
    user_id := dictGetD data "user_id" (dictGetD data "uid" .null)
    start := dictGetD data "start" .null
    stop := dictGetD data "stop" .null
    duration := dictGetD data "duration" (.int 0)
    billable := dictGetD data "billable" (.bool false)
    tags := orEmptyList (dictGetD data "tags" .null)
    tag_ids := orEmptyList (dictGetD data "tag_ids" .null)
    project_name := dictGetD data "project_name" .null
    client_name := dictGetD data "client_name" .null
    task_name := dictGetD data "task_name" .null
    created_with := dictGetD data "created_with" .null
    at_ts := dictGetD data "at" .null }

/-- Embeds `TimeEntry.is_running`: `self.duration < 0`. The comparison succeeds
on numbers (a Python `bool` is an int, never negative) and raises
`TypeError` otherwise. -/
def TimeEntry.is_running (e : TimeEntry) : Except PyExc Bool :=
  match e.duration with
  | .int n => .ok (decide (n < 0))
  | .bool _ => .ok false
  | _ => .error .typeError

/-- Embeds `Project` (`models.py`), raw-valued like `TimeEntry`. -/
structure Project where
  id : Json
  workspace_id : Json
  name : Json
  client_id : Json
  client_name : Json
  color : Json
  active : Json
  billable : Json
  is_private : Json
  rate : Json
  estimated_hours : Json
  actual_hours : Json
  created_at : Json
  at_ts : Json

/-- Embeds `Project.from_dict`. -/
def Project.from_dict (data : JsonDict) : Project :=
  { id := dictGetD data "id" .null
    workspace_id := dictGetD data "workspace_id" (dictGetD data "wid" (.int 0))
    name := dictGetD data "name" (.str "")
    client_id := dictGetD data "client_id" (dictGetD data "cid" .null)
    client_name := dictGetD data "client_name" .null
    color := dictGetD data "color" .null
    active := dictGetD data "active" (.bool true)
    billable := dictGetD data "billable" .null
    is_private := dictGetD data "is_private" (.bool true)
    rate := dictGetD data "rate" .null
    estimated_hours := dictGetD data "estimated_hours" .null
    actual_hours := dictGetD data "actual_hours" .null
    created_at := dictGetD data "created_at" .null
    at_ts := dictGetD data "at" .null }

/-- Embeds `validate_time_entry_id` (`utils/validators.py`): `None` raises
`ValueError`, a non-positive integer raises `ValueError`, a positive
integer is returned. (A non-integer argument also raises `ValueError`
in the source; the embedding's typed domain covers the integer and
`None` cases.) -/
def validate_time_entry_id (time_entry_id : Option Int) : Except PyExc Int :=
  match time_entry_id with
  | none => .error .valueError
  | some n => if n ≤ 0 then .error .valueError else .ok n

/-- The `params` dict built by `TimeEntriesEndpoint.get`:
`clean_params({"meta": "true" if meta else None, ...})`. -/
def timeEntryGetParams (meta include_sharing : Option Bool) : JsonDict :=
  cleanParams
    [("meta", if meta = some true then Json.str "true" else Json.null),
     ("include_sharing", if include_sharing = some true then Json.str "true" else Json.null)]

/-- Embeds `TimeEntriesEndpoint.get`: validates the id (raising `ValueError`
before any request), then issues one GET inside `try/except Exception`,
returning `None` on any exception and on a falsy body, and
`TimeEntry.from_dict(data)` otherwise (a non-dict body makes `from_dict`
raise, which the same `except` swallows). -/
def TimeEntriesEndpoint.getEntry (st : ClientState) (now : ℚ)
    (transport : Nat → HttpResponse) (log : List SentRequest)
    (time_entry_id : Option Int) (meta include_sharing : Option Bool) :
    Except PyExc (Option TimeEntry) × ClientState × List SentRequest :=
  match validate_time_entry_id time_entry_id with
  | .error e => (.error e, st, log)
  | .ok n =>
    match TogglClient.requestFn st now transport log "GET"
        ("/me/time_entries/" ++ toString n)
        (.obj (timeEntryGetParams meta include_sharing)) .null with
    | (.error _, st1, log1) => (.ok none, st1, log1)
    | (.ok body, st1, log1) =>
      match body with
      | some j =>
        if j.truthy then
          match j with
          | .obj kvs => (.ok (some (TimeEntry.from_dict kvs)), st1, log1)
          | _ => (.ok none, st1, log1)
        else (.ok none, st1, log1)
      | none => (.ok none, st1, log1)

/-- Embeds `TimeEntriesEndpoint.patch`: refuses more than 100 ids with
`ValueError` before any request; otherwise issues one PATCH to the URL
with the comma-joined ids, passing the operations list as the request
data. -/
def TimeEntriesEndpoint.patchEntries (st : ClientState) (now : ℚ)
    (transport : Nat → HttpResponse) (log : List SentRequest)
    (workspace_id : Int) (time_entry_ids : List Int) (operations : Json) :
    Except PyExc (Option Json) × ClientState × List SentRequest :=
  if time_entry_ids.length > 100 then (.error .valueError, st, log)
  else
    let ids_str := String.intercalate "," (time_entry_ids.map toString)
    TogglClient.requestFn st now transport log "PATCH"
      ("/workspaces/" ++ toString workspace_id ++ "/time_entries/" ++ ids_str)
      .null operations

/-- Python `int(x)` on a rational: truncation toward zero. -/
def pyInt (q : ℚ) : Int :=
  if 0 ≤ q then ⌊q⌋ else ⌈q⌉

/-- The duration computed by `TimeEntriesEndpoint.start`:
`int(-1 * start_time.timestamp())` at clock reading `ts`. -/
def startDuration (ts : ℚ) : Int :=
  pyInt ((-1) * ts)

/-- The request body `TimeEntriesEndpoint.create` builds and POSTs:
`clean_params({...})` over its arguments. -/
def createData (workspace_id description duration start project_id task_id
    tags tag_ids billable stop created_with : Json) : JsonDict :=
  cleanParams
    [("workspace_id", workspace_id), ("description", description),
     ("duration", duration), ("start", start), ("project_id", project_id),
     ("task_id", task_id), ("tags", tags), ("tag_ids", tag_ids),
     ("billable", billable), ("stop", stop), ("created_with", created_with)]

/-- The request body produced by `TimeEntriesEndpoint.start` at clock
reading `ts` (Unix seconds): it calls `create` with
`duration = int(-1 * ts)`, the formatted start instant, no `stop` and no
`tag_ids`. -/
def startData (workspace_id : Int) (description : String)
    (project_id task_id tags : Json) (billable : Bool)
    (created_with : String) (ts : ℚ) (start_iso : String) : JsonDict :=
  createData (.int workspace_id) (.str description) (.int (startDuration ts))
    (.str start_iso) project_id task_id tags .null (.bool billable) .null
    (.str created_with)

/-- Python truthiness of an optional string (`None` and `""` falsy). -/
def strTruthy : Option String → Bool
  | some s => !(s == "")
  | none => false

/-- Python `a or b` on optional strings. -/
def pyOr (a b : Option String) : Option String :=
  if strTruthy a then a else b

/-- The environment variables `TogglClient.__init__` reads
(`os.getenv`); `none` means unset. -/
structure Env where
  TOGGL_API_TOKEN : Option String
  TOGGL_EMAIL : Option String
  TOGGL_PASSWORD : Option String

/-- The authentication configuration `__init__` installs on the
session: exactly one of basic auth with the token, basic auth with
email/password, or the session-cookie header. -/
inductive AuthConfig where
  | basicToken (token : String)
  | basicUser (email password : String)
  | cookieHeader (cookie : String)

/-- Embeds `TogglClient.__init__` credential resolution: each credential is the
argument with the environment as fallback (Python `or`; there is no
environment fallback for the session cookie), then the `if/elif` chain
configures exactly one auth method or raises `TogglAuthError`. -/
def clientInit (api_token email password session_cookie : Option String)
    (env : Env) : Except TogglException AuthConfig :=
  let tok := pyOr api_token env.TOGGL_API_TOKEN
  let em := pyOr email env.TOGGL_EMAIL
  let pw := pyOr password env.TOGGL_PASSWORD
  if strTruthy tok then .ok (.basicToken (tok.getD ""))
  else if strTruthy em && strTruthy pw then .ok (.basicUser (em.getD "") (pw.getD ""))
  else if strTruthy session_cookie then .ok (.cookieHeader (session_cookie.getD ""))
  else .error (.auth
    (.str ("Authentication required. Provide api_token, email+password, " ++
      "session_cookie, or set TOGGL_API_TOKEN environment variable. " ++
      "Get your token at: https://track.toggl.com/profile"))
    none .null)

/-- Python iteration over a value (`for item in items`): lists yield
their elements, strings their characters, dicts their keys; other
values raise `TypeError`. -/
def pyIter : Json → Except PyExc (List Json)
  | .arr xs => .ok xs
  | .str s => .ok (s.toList.map (fun c => .str (String.mk [c])))
  | .obj kvs => .ok (kvs.map (fun kv => .str kv.1))
  | _ => .error .typeError

/-- Python `a >= b` with `a` an int: succeeds against ints and bools,
raises `TypeError` otherwise. -/
def pyGeInt (a : Int) : Json → Except PyExc Bool
  | .int m => .ok (decide (a ≥ m))
  | .bool b => .ok (decide (a ≥ (if b then 1 else 0)))
  | _ => .error .typeError

/-- The outcome of running the `auto_paginate` generator to completion:
the items it yielded in order, the number of times it called
`fetch_func`, and the exception, if any, it raised at the end. -/
structure PaginateResult where
  items : List Json
  calls : Nat
  exc : Option PyExc

/-- Embeds `if max_pages and pages_fetched >= max_pages` (Python truthiness:
`None` and `0` disable the limit). -/
def maxPagesReached (max_pages : Option Int) (pages_fetched : Int) : Bool :=
  match max_pages with
  | some m => !(m == 0) && decide (pages_fetched ≥ m)
  | none => false

/-- Embeds `auto_paginate` (`utils/pagination.py`), fuel-indexed: one fuel unit
per loop iteration; `none` means the fuel ran out before the loop
finished. A page response is Python `None` or a dict; the loop breaks on
a falsy response, falsy items, `current_page * per_page >= total_count`
when `total_count` is not `None`, or a falsy `has_more` (default
true). -/
def autoPaginate (fetch : Int → Int → Option JsonDict)
    (current_page per_page : Int) (max_pages : Option Int)
    (items_key : String) (pages_fetched : Int) : Nat → Option PaginateResult
  | 0 => none
  | fuel + 1 =>
    if maxPagesReached max_pages pages_fetched then some ⟨[], 0, none⟩
    else
      match fetch current_page per_page with
      | none => some ⟨[], 1, none⟩
      | some d =>
        if d.isEmpty then some ⟨[], 1, none⟩
        else if !(dictGetD d items_key (.arr [])).truthy then some ⟨[], 1, none⟩
        else
          match pyIter (dictGetD d items_key (.arr [])) with
          | .error e => some ⟨[], 1, some e⟩
          | .ok ys =>
            match (match dictGet d "total_count" with
                   | some .null => Except.ok false
                   | none => Except.ok false
                   | some tc => pyGeInt (current_page * per_page) tc :
                     Except PyExc Bool) with
            | .error e => some ⟨ys, 1, some e⟩
            | .ok true => some ⟨ys, 1, none⟩
            | .ok false =>
              if !(dictGetD d "has_more" (.bool true)).truthy then some ⟨ys, 1, none⟩
              else
                match autoPaginate fetch (current_page + 1) per_page max_pages
                    items_key (pages_fetched + 1) fuel with
                | none => none
                | some r => some ⟨ys ++ r.items, 1 + r.calls, r.exc⟩

/-- Constructor tests for the taxonomy. -/
def TogglException.isBase : TogglException → Bool
  | .base _ _ _ => true
  | _ => false

def TogglException.isAuth : TogglException → Bool
  | .auth _ _ _ => true
  | _ => false

def TogglException.isRateLimit : TogglException → Bool
  | .rateLimit _ _ _ _ => true
  | _ => false

def TogglException.isQuota : TogglException → Bool
  | .quota _ _ _ _ _ => true
  | _ => false

def TogglException.isNotFound : TogglException → Bool
  | .notFound _ _ _ => true
  | _ => false

def TogglException.isValidation : TogglException → Bool
  | .validation _ _ _ => true
  | _ => false

def TogglException.isServer : TogglException → Bool
  | .server _ _ _ => true
  | _ => false

/-- Whether a raised exception is one of the library's typed
exceptions at all. -/
def PyExc.isToggl : PyExc → Bool
  | .toggl _ => true
  | _ => false

/-- Claim side (C1): the error kind the spec prescribes for a status
code — validation for 400, auth for 401 and 403, quota for 402,
not-found for 404, rate-limit for 429, server for 5xx, base
otherwise. -/
def claimKindFor (status : Int) (exc : TogglException) : Bool :=
  if status = 400 then exc.isValidation
  else if status = 401 ∨ status = 403 then exc.isAuth
  else if status = 402 then exc.isQuota
  else if status = 404 then exc.isNotFound
  else if status = 429 then exc.isRateLimit
  else if 500 ≤ status then exc.isServer
  else exc.isBase

/-- Whether the decoded error body of a response is a dict (always the
case when the body fails to decode, since a message dict is then
synthesized). -/
def errorBodyIsDict (r : HttpResponse) : Bool :=
  match decodeErrorBody r with
  | .obj _ => true
  | _ => false

/-- A header value that `int(h) if h else None` handles without raising:
absent, empty, or a decimal integer. -/
def headerIntOk (hs : List (String × String)) (k : String) : Bool :=
  match headerGet hs k with
  | none => true
  | some s => s == "" || (pyStrToInt s).isSome

/-- The headers `_handle_error` parses for status 402 and 429 are
integer-valued where present and non-empty. -/
def errorHeadersOk (r : HttpResponse) : Bool :=
  (!(r.statusCode == 402) ||
    (headerIntOk r.headers "X-Toggl-Quota-Remaining" &&
     headerIntOk r.headers "X-Toggl-Quota-Resets-In")) &&
  (!(r.statusCode == 429) || headerIntOk r.headers "Retry-After")

/-- Claim side (C2): the items of the page `fetch` returns at page
number `p` — what one loop iteration would yield for that page (nothing
for a missing page or a missing/falsy items value). -/
def pageItems (fetch : Int → Int → Option JsonDict) (per_page : Int)
    (items_key : String) (p : Int) : List Json :=
  match fetch p per_page with
  | none => []
  | some d =>
    match dictGetD d items_key (.arr []) with
    | .arr xs => xs
    | _ => []

/-- Claim side (C2): `auto_paginate` continues past page `p` — the
response is truthy, its items are truthy, `total_count` (when present
as an integer) has not been reached, and `has_more` (default true) is
truthy. -/
def continuesAfter (fetch : Int → Int → Option JsonDict) (per_page : Int)
    (items_key : String) (p : Int) : Bool :=
  match fetch p per_page with
  | none => false
  | some d =>
    !d.isEmpty &&
    (dictGetD d items_key (.arr [])).truthy &&
    (match dictGet d "total_count" with
     | some (.int t) => decide (p * per_page < t)
     | _ => true) &&
    (dictGetD d "has_more" (.bool true)).truthy

/-- A well-formed page response (the domain claim C2 speaks about): the
items value, when present, is a list, and `total_count`, when present,
is `None` or an integer. -/
def respWellFormed (items_key : String) (d : JsonDict) : Bool :=
  (match dictGetD d items_key (.arr []) with
   | .arr _ => true
   | _ => false) &&
  (match dictGet d "total_count" with
   | none => true
   | some .null => true
   | some (.int _) => true
   | _ => false)

/-- Claim side (C5): a credential is available — an api token, an
email+password pair, or a session cookie, each resolved from the
argument with the environment as fallback. -/
def credentialAvailable (api_token email password session_cookie : Option String)
    (env : Env) : Bool :=
  strTruthy (pyOr api_token env.TOGGL_API_TOKEN) ||
  (strTruthy (pyOr email env.TOGGL_EMAIL) &&
   strTruthy (pyOr password env.TOGGL_PASSWORD)) ||
  strTruthy session_cookie

/-- Whether `__init__` raised `TogglAuthError`. -/
def initRaisesAuth (r : Except TogglException AuthConfig) : Bool :=
  match r with
  | .error e => e.isAuth
  | .ok _ => false

/-- Whether an `Except` result is a normal return. -/
def exceptIsOk {ε α : Type} : Except ε α → Bool
  | .ok _ => true
  | .error _ => false

/-- The dynamic values admitted by `_request`'s `Optional[Dict]`
annotation for `params` and `data`: `None` or a dict. -/
def isOptionalDict : Json → Bool
  | .null => true
  | .obj _ => true
  | _ => false

/-- Claim side (C2): the items of `k` consecutive pages starting at
`page`, concatenated in order. -/
def pagesConcat (fetch : Int → Int → Option JsonDict) (per_page : Int)
    (items_key : String) (page : Int) (k : Nat) : List Json :=
  ((List.range k).map
    (fun i : Nat => pageItems fetch per_page items_key (page + (i : Int)))).flatten

/-- A concrete single-page fetch for the C2 witness: page 1 carries two
items and `has_more: false`; other pages are missing. -/
def c2FetchW : Int → Int → Option JsonDict := fun p _ =>
  if p = 1 then
    some [("items", Json.arr [Json.int 1, Json.int 2]), ("has_more", Json.bool false)]
  else none

/-- C3: the rate limiter enforces a minimum inter-request interval.
For a call to `wait_if_needed` at clock time `now` on a limiter whose
recorded `last_request_time` is `t` (set by the previous call): when the
elapsed time is below `min_interval` the call sleeps exactly the
difference; after the call `last_request_time` equals the current time
(`now` plus the time slept); and the moment the request is issued is at
least `min_interval` after `t`, so two consecutive requests are never
closer than `min_interval`. -/
theorem c3_rate_limiter_spacing (rl : RateLimiter) (t now : ℚ)
    (hlast : rl.lastRequestTime = some t) :
    (now - t < rl.minInterval →
        (rl.waitIfNeeded now).1 = rl.minInterval - (now - t)) ∧
      (rl.waitIfNeeded now).2.lastRequestTime = some (now + (rl.waitIfNeeded now).1) ∧
      rl.minInterval ≤ (now + (rl.waitIfNeeded now).1) - t := by
  by_cases h : now - t < rl.minInterval
  · refine ⟨fun _ => ?_, ?_, ?_⟩ <;>
      simp [RateLimiter.waitIfNeeded, hlast, h] <;> linarith
  · refine ⟨fun hc => absurd hc h, ?_, ?_⟩ <;>
      simp [RateLimiter.waitIfNeeded, hlast, h] <;> linarith

/-- Witness for C3 at a concrete limiter: `min_interval = 1`, previous
request at `t = 10`, current call at `now = 21/2`. -/
theorem c3_rate_limiter_spacing_witness :
    ((21 / 2 : ℚ) - 10 < (1 : ℚ) →
        ((⟨1, some 10, none, none⟩ : RateLimiter).waitIfNeeded (21 / 2)).1 =
          (1 : ℚ) - ((21 / 2 : ℚ) - 10)) ∧
      ((⟨1, some 10, none, none⟩ : RateLimiter).waitIfNeeded (21 / 2)).2.lastRequestTime =
        some ((21 / 2 : ℚ) +
          ((⟨1, some 10, none, none⟩ : RateLimiter).waitIfNeeded (21 / 2)).1) ∧
      (1 : ℚ) ≤ ((21 / 2 : ℚ) +
          ((⟨1, some 10, none, none⟩ : RateLimiter).waitIfNeeded (21 / 2)).1) - 10 :=
  c3_rate_limiter_spacing ⟨1, some 10, none, none⟩ 10 (21 / 2) rfl

/-- Fact: `updateQuotaResets` touches only `quotaResetsIn`. -/
theorem updateQuotaResets_frame (rl : RateLimiter) (hs : List (String × String)) :
    (rl.updateQuotaResets hs).1.minInterval = rl.minInterval ∧
      (rl.updateQuotaResets hs).1.lastRequestTime = rl.lastRequestTime ∧
      (rl.updateQuotaResets hs).1.quotaRemaining = rl.quotaRemaining := by
  unfold RateLimiter.updateQuotaResets
  rcases h : headerGet hs "X-Toggl-Quota-Resets-In" with _ | s
  · simp
  · by_cases he : s = ""
    · simp [he]
    · rcases hp : pyIntOfString s with e | n <;> simp [he, hp]

/-- Fact: `updateQuotaResets` on a header that parses: sets the field and
raises nothing. -/
theorem updateQuotaResets_sets (rl : RateLimiter) (hs : List (String × String))
    (s : String) (n : Int) (hh : headerGet hs "X-Toggl-Quota-Resets-In" = some s)
    (hne : s ≠ "") (hp : pyStrToInt s = some n) :
    rl.updateQuotaResets hs = ({ rl with quotaResetsIn := some n }, none) := by
  unfold RateLimiter.updateQuotaResets
  simp [hh, hne, pyIntOfString, hp]

/-- Fact: `updateQuotaResets` with the header absent: identity. -/
theorem updateQuotaResets_absent (rl : RateLimiter) (hs : List (String × String))
    (hh : headerGet hs "X-Toggl-Quota-Resets-In" = none) :
    rl.updateQuotaResets hs = (rl, none) := by
  unfold RateLimiter.updateQuotaResets
  simp [hh]

/-- Fact: `updateQuotaResets` never raises on well-behaved headers. -/
theorem updateQuotaResets_ok (rl : RateLimiter) (hs : List (String × String))
    (hok : headerIntOk hs "X-Toggl-Quota-Resets-In" = true) :
    (rl.updateQuotaResets hs).2 = none := by
  unfold RateLimiter.updateQuotaResets
  unfold headerIntOk at hok
  rcases h : headerGet hs "X-Toggl-Quota-Resets-In" with _ | s
  · simp
  · rw [h] at hok
    by_cases he : s = ""
    · simp [he]
    · simp [he] at hok
      rcases hp : pyStrToInt s with _ | n
      · rw [hp] at hok
        simp at hok
      · simp [he, pyIntOfString, hp]


/-- Fact: `update_from_headers` with the first quota header absent reduces to
the second-header step. -/
theorem updateFromHeaders_absent (rl : RateLimiter) (hs : List (String × String))
    (hh : headerGet hs "X-Toggl-Quota-Remaining" = none) :
    rl.updateFromHeaders hs = rl.updateQuotaResets hs := by
  unfold RateLimiter.updateFromHeaders
  rw [hh]

/-- Fact: `update_from_headers` with the first quota header empty (falsy)
skips the assignment. -/
theorem updateFromHeaders_empty (rl : RateLimiter) (hs : List (String × String))
    (hh : headerGet hs "X-Toggl-Quota-Remaining" = some "") :
    rl.updateFromHeaders hs = rl.updateQuotaResets hs := by
  unfold RateLimiter.updateFromHeaders
  rw [hh]
  simp

/-- Fact: `update_from_headers` with a parsing first quota header assigns
`quota_remaining` before the second-header step. -/
theorem updateFromHeaders_parsed (rl : RateLimiter) (hs : List (String × String))
    (s : String) (n : Int) (hh : headerGet hs "X-Toggl-Quota-Remaining" = some s)
    (hne : s ≠ "") (hp : pyStrToInt s = some n) :
    rl.updateFromHeaders hs =
      RateLimiter.updateQuotaResets { rl with quotaRemaining := some n } hs := by
  unfold RateLimiter.updateFromHeaders
  rw [hh]
  simp [hne, pyIntOfString, hp]

/-- C7: `update_from_headers` sets `quota_remaining` /
`quota_resets_in` to the integer value of its header whenever that
header is present and non-empty, leaves each unchanged when its header
is absent, and never modifies `min_interval` or `last_request_time`;
stated for headers that `int(...)` accepts, as the claim presupposes
integer-valued headers. -/
theorem c7_update_from_headers (rl : RateLimiter) (hs : List (String × String))
    (hok1 : headerIntOk hs "X-Toggl-Quota-Remaining" = true)
    (hok2 : headerIntOk hs "X-Toggl-Quota-Resets-In" = true) :
    (rl.updateFromHeaders hs).1.minInterval = rl.minInterval ∧
      (rl.updateFromHeaders hs).1.lastRequestTime = rl.lastRequestTime ∧
      (rl.updateFromHeaders hs).2 = none ∧
      (∀ s n, headerGet hs "X-Toggl-Quota-Remaining" = some s → s ≠ "" →
        pyStrToInt s = some n → (rl.updateFromHeaders hs).1.quotaRemaining = some n) ∧
      (headerGet hs "X-Toggl-Quota-Remaining" = none →
        (rl.updateFromHeaders hs).1.quotaRemaining = rl.quotaRemaining) ∧
      (∀ s n, headerGet hs "X-Toggl-Quota-Resets-In" = some s → s ≠ "" →
        pyStrToInt s = some n → (rl.updateFromHeaders hs).1.quotaResetsIn = some n) ∧
      (headerGet hs "X-Toggl-Quota-Resets-In" = none →
        (rl.updateFromHeaders hs).1.quotaResetsIn = rl.quotaResetsIn) := by
  rcases h1 : headerGet hs "X-Toggl-Quota-Remaining" with _ | s1
  · rw [updateFromHeaders_absent rl hs h1]
    refine ⟨(updateQuotaResets_frame rl hs).1, (updateQuotaResets_frame rl hs).2.1,
      updateQuotaResets_ok rl hs hok2, ?_, ?_, ?_, ?_⟩
    · intro s n hh
      exact Option.noConfusion hh
    · intro _
      exact (updateQuotaResets_frame rl hs).2.2
    · intro s n hh hne hp
      rw [updateQuotaResets_sets rl hs s n hh hne hp]
    · intro hh
      rw [updateQuotaResets_absent rl hs hh]
  · by_cases he1 : s1 = ""
    · subst he1
      rw [updateFromHeaders_empty rl hs h1]
      refine ⟨(updateQuotaResets_frame rl hs).1, (updateQuotaResets_frame rl hs).2.1,
        updateQuotaResets_ok rl hs hok2, ?_, ?_, ?_, ?_⟩
      · intro s n hh hne hp
        injection hh with h2
        exact absurd h2.symm hne
      · intro hh
        exact Option.noConfusion hh
      · intro s n hh hne hp
        rw [updateQuotaResets_sets rl hs s n hh hne hp]
      · intro hh
        rw [updateQuotaResets_absent rl hs hh]
    · have hok1b := hok1
      unfold headerIntOk at hok1b
      rw [h1] at hok1b
      simp [he1] at hok1b
      obtain ⟨n1, hp1⟩ := Option.isSome_iff_exists.mp hok1b
      rw [updateFromHeaders_parsed rl hs s1 n1 h1 he1 hp1]
      refine ⟨(updateQuotaResets_frame _ hs).1, (updateQuotaResets_frame _ hs).2.1,
        updateQuotaResets_ok _ hs hok2, ?_, ?_, ?_, ?_⟩
      · intro s n hh hne hp
        injection hh with h2
        subst h2
        rw [hp1] at hp
        injection hp with h3
        subst h3
        exact (updateQuotaResets_frame _ hs).2.2
      · intro hh
        exact Option.noConfusion hh
      · intro s n hh hne hp
        rw [updateQuotaResets_sets _ hs s n hh hne hp]
      · intro hh
        rw [updateQuotaResets_absent _ hs hh]

/-- Witness for C7 at concrete headers carrying both quota values. -/
theorem c7_update_from_headers_witness :
    ((⟨1, none, some 1, some 2⟩ : RateLimiter).updateFromHeaders
        [("X-Toggl-Quota-Remaining", "42"), ("X-Toggl-Quota-Resets-In", "7")]).1.quotaRemaining =
      some 42 ∧
    ((⟨1, none, some 1, some 2⟩ : RateLimiter).updateFromHeaders
        [("X-Toggl-Quota-Remaining", "42"), ("X-Toggl-Quota-Resets-In", "7")]).1.quotaResetsIn =
      some 7 ∧
    ((⟨1, none, some 1, some 2⟩ : RateLimiter).updateFromHeaders
        [("X-Toggl-Quota-Remaining", "42"), ("X-Toggl-Quota-Resets-In", "7")]).1.minInterval = 1 :=
  ⟨(c7_update_from_headers ⟨1, none, some 1, some 2⟩
      [("X-Toggl-Quota-Remaining", "42"), ("X-Toggl-Quota-Resets-In", "7")]
      (by decide) (by decide)).2.2.2.1 "42" 42 rfl (by decide) (by decide),
   (c7_update_from_headers ⟨1, none, some 1, some 2⟩
      [("X-Toggl-Quota-Remaining", "42"), ("X-Toggl-Quota-Resets-In", "7")]
      (by decide) (by decide)).2.2.2.2.2.1 "7" 7 rfl (by decide) (by decide),
   (c7_update_from_headers ⟨1, none, some 1, some 2⟩
      [("X-Toggl-Quota-Remaining", "42"), ("X-Toggl-Quota-Resets-In", "7")]
      (by decide) (by decide)).1⟩

/-- Truncation toward zero commutes with negation, so
`int(-1 * ts) = -int(ts)`. -/
theorem startDuration_eq_neg_pyInt (ts : ℚ) : startDuration ts = -(pyInt ts) := by
  unfold startDuration pyInt
  rw [show (-1 : ℚ) * ts = -ts by ring]
  rcases lt_trichotomy ts 0 with h | h | h
  · rw [if_pos (by linarith), if_neg (by linarith), Int.floor_neg]
  · subst h
    norm_num
  · rw [if_neg (by simp; linarith), if_pos (by linarith), Int.ceil_neg]

/-- C8: a time entry is running exactly when its duration is negative
(`is_running` is `duration < 0`), and the `start` helper requests an
entry whose `duration` is the negated (truncated) Unix start timestamp,
hence negative for any clock reading from the Unix epoch onward. -/
theorem c8_running_iff_negative_duration (e : TimeEntry) (n : Int) (ts : ℚ)
    (workspace_id : Int) (description : String)
    (project_id task_id tags : Json) (billable : Bool)
    (created_with start_iso : String)
    (hdur : e.duration = .int n) (hts : 1 ≤ ts) :
    (e.is_running = .ok true ↔ n < 0) ∧
      dictGet (startData workspace_id description project_id task_id tags
        billable created_with ts start_iso) "duration" =
        some (.int (-(pyInt ts))) ∧
      -(pyInt ts) < 0 := by
  have hfloor : 1 ≤ pyInt ts := by
    unfold pyInt
    rw [if_pos (by linarith)]
    exact Int.le_floor.mpr (by exact_mod_cast hts)
  refine ⟨?_, ?_, by omega⟩
  · rw [TimeEntry.is_running, hdur]
    simp
  · rw [startData, createData, cleanParams, dictGet]
    simp [List.lookup, startDuration_eq_neg_pyInt]

/-- Witness for C8: an entry parsed with duration `-5` is running; a
timer started at Unix time `100` requests duration `-100`. -/
theorem c8_running_iff_negative_duration_witness :
    ((TimeEntry.from_dict [("duration", Json.int (-5))]).is_running = .ok true ↔
      (-5 : Int) < 0) ∧
      dictGet (startData 3 "work" Json.null Json.null Json.null false
        "toggl-track-skill" 100 "2024-01-01T00:00:00Z") "duration" =
        some (.int (-(pyInt 100))) ∧
      -(pyInt 100) < 0 :=
  c8_running_iff_negative_duration (TimeEntry.from_dict [("duration", Json.int (-5))])
    (-5) 100 3 "work" Json.null Json.null Json.null false
    "toggl-track-skill" "2024-01-01T00:00:00Z" rfl (by norm_num)

/-- C5: `TogglClient.__init__` raises `TogglAuthError` exactly when no
credential is available (api token, email+password pair, or session
cookie, each resolved from the argument with the environment fallback),
and otherwise configures exactly one auth method following the
precedence token > email+password > cookie (the return type admits a
single configuration). -/
theorem c5_client_init_auth (api_token email password session_cookie : Option String)
    (env : Env) :
    (initRaisesAuth (clientInit api_token email password session_cookie env) =
      !(credentialAvailable api_token email password session_cookie env)) ∧
      (exceptIsOk (clientInit api_token email password session_cookie env) =
        credentialAvailable api_token email password session_cookie env) ∧
      (strTruthy (pyOr api_token env.TOGGL_API_TOKEN) = true →
        clientInit api_token email password session_cookie env =
          .ok (.basicToken ((pyOr api_token env.TOGGL_API_TOKEN).getD ""))) ∧
      (strTruthy (pyOr api_token env.TOGGL_API_TOKEN) = false →
        strTruthy (pyOr email env.TOGGL_EMAIL) = true →
        strTruthy (pyOr password env.TOGGL_PASSWORD) = true →
        clientInit api_token email password session_cookie env =
          .ok (.basicUser ((pyOr email env.TOGGL_EMAIL).getD "")
            ((pyOr password env.TOGGL_PASSWORD).getD ""))) ∧
      (strTruthy (pyOr api_token env.TOGGL_API_TOKEN) = false →
        (strTruthy (pyOr email env.TOGGL_EMAIL) &&
          strTruthy (pyOr password env.TOGGL_PASSWORD)) = false →
        strTruthy session_cookie = true →
        clientInit api_token email password session_cookie env =
          .ok (.cookieHeader (session_cookie.getD ""))) := by
  unfold clientInit credentialAvailable initRaisesAuth exceptIsOk
  by_cases h1 : strTruthy (pyOr api_token env.TOGGL_API_TOKEN) <;>
    by_cases h2 : strTruthy (pyOr email env.TOGGL_EMAIL) <;>
      by_cases h3 : strTruthy (pyOr password env.TOGGL_PASSWORD) <;>
        by_cases h4 : strTruthy session_cookie <;>
          simp [h1, h2, h3, h4, TogglException.isAuth]

/-- Witness for C5: a token argument wins; with no credentials at all,
`__init__` raises `TogglAuthError`. -/
theorem c5_client_init_auth_witness :
    clientInit (some "tok") none none none ⟨none, none, none⟩ =
      .ok (.basicToken "tok") ∧
    initRaisesAuth (clientInit none none none none ⟨none, none, none⟩) =
      !(credentialAvailable none none none none ⟨none, none, none⟩) :=
  ⟨(c5_client_init_auth (some "tok") none none none ⟨none, none, none⟩).2.2.1 rfl,
   (c5_client_init_auth none none none none ⟨none, none, none⟩).1⟩

/-- Fact: `d.get(k, dv)` when the key is absent. -/
theorem dictGetD_absent (d : JsonDict) (k : String) (dv : Json)
    (h : dictGet d k = none) : dictGetD d k dv = dv := by
  unfold dictGet at h
  unfold dictGetD
  rw [h]
  rfl

/-- Fact: `d.get(k, dv)` when the key is present. -/
theorem dictGetD_present (d : JsonDict) (k : String) (v dv : Json)
    (h : dictGet d k = some v) : dictGetD d k dv = v := by
  unfold dictGet at h
  unfold dictGetD
  rw [h]
  rfl

/-- C6: record construction from JSON is total (the embedded `from_dict`
functions are total Lean functions over arbitrary dicts, as `.get` never
raises) and lenient: each documented alternate key is used when the
primary key is absent, and the documented default when both are absent —
for `TimeEntry`: `workspace_id` falls back to `wid` then `0`,
`project_id` to `pid`, `task_id` to `tid`, `user_id` to `uid`,
`duration` to `0`, `tags` and `tag_ids` to the empty list; for
`Project`: `workspace_id` to `wid` then `0`, `client_id` to `cid`. -/
theorem c6_from_dict_lenient (data : JsonDict) :
    (dictGet data "workspace_id" = none → ∀ v, dictGet data "wid" = some v →
      (TimeEntry.from_dict data).workspace_id = v) ∧
    (dictGet data "workspace_id" = none → dictGet data "wid" = none →
      (TimeEntry.from_dict data).workspace_id = .int 0) ∧
    (dictGet data "project_id" = none → ∀ v, dictGet data "pid" = some v →
      (TimeEntry.from_dict data).project_id = v) ∧
    (dictGet data "project_id" = none → dictGet data "pid" = none →
      (TimeEntry.from_dict data).project_id = .null) ∧
    (dictGet data "task_id" = none → ∀ v, dictGet data "tid" = some v →
      (TimeEntry.from_dict data).task_id = v) ∧
    (dictGet data "task_id" = none → dictGet data "tid" = none →
      (TimeEntry.from_dict data).task_id = .null) ∧
    (dictGet data "user_id" = none → ∀ v, dictGet data "uid" = some v →
      (TimeEntry.from_dict data).user_id = v) ∧
    (dictGet data "user_id" = none → dictGet data "uid" = none →
      (TimeEntry.from_dict data).user_id = .null) ∧
    (dictGet data "duration" = none →
      (TimeEntry.from_dict data).duration = .int 0) ∧
    (dictGet data "tags" = none → (TimeEntry.from_dict data).tags = .arr []) ∧
    (dictGet data "tag_ids" = none → (TimeEntry.from_dict data).tag_ids = .arr []) ∧
    (dictGet data "workspace_id" = none → ∀ v, dictGet data "wid" = some v →
      (Project.from_dict data).workspace_id = v) ∧
    (dictGet data "workspace_id" = none → dictGet data "wid" = none →
      (Project.from_dict data).workspace_id = .int 0) ∧
    (dictGet data "client_id" = none → ∀ v, dictGet data "cid" = some v →
      (Project.from_dict data).client_id = v) ∧
    (dictGet data "client_id" = none → dictGet data "cid" = none →
      (Project.from_dict data).client_id = .null) := by
  refine ⟨?_, ?_, ?_, ?_, ?_, ?_, ?_, ?_, ?_, ?_, ?_, ?_, ?_, ?_, ?_⟩
  · intro h1 v h2
    simp [TimeEntry.from_dict, dictGetD_absent _ _ _ h1, dictGetD_present _ _ _ _ h2]
  · intro h1 h2
    simp [TimeEntry.from_dict, dictGetD_absent _ _ _ h1, dictGetD_absent _ _ _ h2]
  · intro h1 v h2
    simp [TimeEntry.from_dict, dictGetD_absent _ _ _ h1, dictGetD_present _ _ _ _ h2]
  · intro h1 h2
    simp [TimeEntry.from_dict, dictGetD_absent _ _ _ h1, dictGetD_absent _ _ _ h2]
  · intro h1 v h2
    simp [TimeEntry.from_dict, dictGetD_absent _ _ _ h1, dictGetD_present _ _ _ _ h2]
  · intro h1 h2
    simp [TimeEntry.from_dict, dictGetD_absent _ _ _ h1, dictGetD_absent _ _ _ h2]
  · intro h1 v h2
    simp [TimeEntry.from_dict, dictGetD_absent _ _ _ h1, dictGetD_present _ _ _ _ h2]
  · intro h1 h2
    simp [TimeEntry.from_dict, dictGetD_absent _ _ _ h1, dictGetD_absent _ _ _ h2]
  · intro h1
    simp [TimeEntry.from_dict, dictGetD_absent _ _ _ h1]
  · intro h1
    simp [TimeEntry.from_dict, orEmptyList, dictGetD_absent _ _ _ h1, Json.truthy]
  · intro h1
    simp [TimeEntry.from_dict, orEmptyList, dictGetD_absent _ _ _ h1, Json.truthy]
  · intro h1 v h2
    simp [Project.from_dict, dictGetD_absent _ _ _ h1, dictGetD_present _ _ _ _ h2]
  · intro h1 h2
    simp [Project.from_dict, dictGetD_absent _ _ _ h1, dictGetD_absent _ _ _ h2]
  · intro h1 v h2
    simp [Project.from_dict, dictGetD_absent _ _ _ h1, dictGetD_present _ _ _ _ h2]
  · intro h1 h2
    simp [Project.from_dict, dictGetD_absent _ _ _ h1, dictGetD_absent _ _ _ h2]

/-- Witness for C6: fallbacks observed on a dict holding only alternate
keys and on the empty dict. -/
theorem c6_from_dict_lenient_witness :
    (TimeEntry.from_dict [("wid", Json.int 7), ("pid", Json.int 8),
        ("tid", Json.int 9), ("uid", Json.int 10)]).workspace_id = Json.int 7 ∧
    (TimeEntry.from_dict [("wid", Json.int 7), ("pid", Json.int 8),
        ("tid", Json.int 9), ("uid", Json.int 10)]).project_id = Json.int 8 ∧
    (TimeEntry.from_dict ([] : JsonDict)).workspace_id = Json.int 0 ∧
    (TimeEntry.from_dict ([] : JsonDict)).duration = Json.int 0 ∧
    (TimeEntry.from_dict ([] : JsonDict)).tags = Json.arr [] ∧
    (Project.from_dict [("cid", Json.int 11)]).client_id = Json.int 11 :=
  ⟨(c6_from_dict_lenient [("wid", Json.int 7), ("pid", Json.int 8),
      ("tid", Json.int 9), ("uid", Json.int 10)]).1 rfl (Json.int 7) rfl,
   (c6_from_dict_lenient [("wid", Json.int 7), ("pid", Json.int 8),
      ("tid", Json.int 9), ("uid", Json.int 10)]).2.2.1 rfl (Json.int 8) rfl,
   (c6_from_dict_lenient ([] : JsonDict)).2.1 rfl rfl,
   (c6_from_dict_lenient ([] : JsonDict)).2.2.2.2.2.2.2.2.1 rfl,
   (c6_from_dict_lenient ([] : JsonDict)).2.2.2.2.2.2.2.2.2.1 rfl,
   (c6_from_dict_lenient [("cid", Json.int 11)]).2.2.2.2.2.2.2.2.2.2.2.2.2.1 rfl
     (Json.int 11) rfl⟩

/-- Every exit of `finishRequest` leaves the log exactly as handed in:
the tail of `_request` issues no further transport calls. -/
theorem finishRequest_log (resp : HttpResponse) (rl1 : RateLimiter)
    (log1 : List SentRequest) : (finishRequest resp rl1 log1).2.2 = log1 := by
  unfold finishRequest
  rcases (rl1.updateFromHeaders resp.headers).2 with _ | e
  · by_cases hok : resp.respOk
    · by_cases ht : resp.text = ""
      · simp [hok, ht]
      · rcases hj : resp.jsonBody with _ | j <;> simp [hok, ht, hj]
    · simp [hok]
  · simp

/-- Values within the `Optional[Dict]` annotation never make
`clean_params` raise. -/
theorem cleanIfTruthy_isOk (v : Json) (h : isOptionalDict v = true) :
    ∃ w, cleanIfTruthy v = .ok w := by
  cases v with
  | null => exact ⟨.null, rfl⟩
  | obj kvs =>
    by_cases hk : (Json.obj kvs).truthy
    · exact ⟨.obj (cleanParams kvs), by simp [cleanIfTruthy, hk]⟩
    · exact ⟨.null, by simp [cleanIfTruthy, hk]⟩
  | bool b => simp [isOptionalDict] at h
  | int n => simp [isOptionalDict] at h
  | str s => simp [isOptionalDict] at h
  | arr xs => simp [isOptionalDict] at h

/-- C4: `_request` hands exactly one request to the transport — the log
grows by exactly one entry — whether the response is a success or an
error, with no retry; stated over the `Optional[Dict]` domain of the
`params`/`data` annotations. -/
theorem c4_single_round_trip (st : ClientState) (now : ℚ)
    (transport : Nat → HttpResponse) (log : List SentRequest)
    (method endpoint : String) (params data : Json)
    (hp : isOptionalDict params = true) (hd : isOptionalDict data = true) :
    ∃ req, (TogglClient.requestFn st now transport log method endpoint
      params data).2.2 = log ++ [req] := by
  obtain ⟨pw, hpw⟩ := cleanIfTruthy_isOk params hp
  obtain ⟨dw, hdw⟩ := cleanIfTruthy_isOk data hd
  refine ⟨⟨method, buildUrl endpoint, pw, dw⟩, ?_⟩
  unfold TogglClient.requestFn
  rw [hpw, hdw]
  exact finishRequest_log _ _ _

/-- Witness for C4: a concrete GET against a 500-responding transport
issues exactly one request. -/
theorem c4_single_round_trip_witness :
    ∃ req, (TogglClient.requestFn ⟨⟨1, none, none, none⟩⟩ 0
      (fun _ => ⟨500, [], "", none⟩) [] "GET" "/me" Json.null Json.null).2.2 =
      ([] : List SentRequest) ++ [req] :=
  c4_single_round_trip ⟨⟨1, none, none, none⟩⟩ 0 (fun _ => ⟨500, [], "", none⟩)
    [] "GET" "/me" Json.null Json.null rfl rfl

/-- C9: for a valid (positive) id, `TimeEntriesEndpoint.get` never
propagates an exception from the request — any error outcome of the
underlying GET yields `None` — while an invalid id (`None` or
non-positive) raises `ValueError` before any request is issued, leaving
the client state and the transport log untouched. -/
theorem c9_get_error_policy (st : ClientState) (now : ℚ)
    (transport : Nat → HttpResponse) (log : List SentRequest)
    (n : Int) (meta include_sharing : Option Bool) :
    (0 < n → exceptIsOk (TimeEntriesEndpoint.getEntry st now transport log
      (some n) meta include_sharing).1 = true) ∧
      (0 < n → ∀ e, (TogglClient.requestFn st now transport log "GET"
          ("/me/time_entries/" ++ toString n)
          (.obj (timeEntryGetParams meta include_sharing)) .null).1 = .error e →
        (TimeEntriesEndpoint.getEntry st now transport log (some n) meta
          include_sharing).1 = .ok none) ∧
      (TimeEntriesEndpoint.getEntry st now transport log none meta include_sharing =
        (.error .valueError, st, log)) ∧
      (n ≤ 0 → TimeEntriesEndpoint.getEntry st now transport log (some n) meta
        include_sharing = (.error .valueError, st, log)) := by
  refine ⟨?_, ?_, rfl, ?_⟩
  · intro h
    have hv : validate_time_entry_id (some n) = .ok n := by
      simp only [validate_time_entry_id]
      rw [if_neg (by omega)]
    simp only [TimeEntriesEndpoint.getEntry, hv]
    rcases hr : TogglClient.requestFn st now transport log "GET"
        ("/me/time_entries/" ++ toString n)
        (.obj (timeEntryGetParams meta include_sharing)) .null with ⟨res, st1, log1⟩
    rcases res with e | body
    · rfl
    · rcases body with _ | j
      · rfl
      · by_cases hj : j.truthy
        · cases j <;> simp [hj, exceptIsOk]
        · simp [hj, exceptIsOk]
  · intro h e he
    have hv : validate_time_entry_id (some n) = .ok n := by
      simp only [validate_time_entry_id]
      rw [if_neg (by omega)]
    simp only [TimeEntriesEndpoint.getEntry, hv]
    rcases hr : TogglClient.requestFn st now transport log "GET"
        ("/me/time_entries/" ++ toString n)
        (.obj (timeEntryGetParams meta include_sharing)) .null with ⟨res, st1, log1⟩
    rcases res with e2 | body
    · rfl
    · rw [hr] at he
      exact Except.noConfusion he
  · intro h
    have hv : validate_time_entry_id (some n) = .error .valueError := by
      simp only [validate_time_entry_id]
      rw [if_pos h]
    simp only [TimeEntriesEndpoint.getEntry, hv]

/-- Witness for C9: a transport answering 500 makes `get(5)` return
`None`; `get(None)` and `get(-1)` raise `ValueError` with no request
issued. -/
theorem c9_get_error_policy_witness :
    exceptIsOk (TimeEntriesEndpoint.getEntry ⟨⟨1, none, none, none⟩⟩ 0
      (fun _ => ⟨500, [], "", none⟩) [] (some 5) none none).1 = true ∧
    (TimeEntriesEndpoint.getEntry ⟨⟨1, none, none, none⟩⟩ 0
      (fun _ => ⟨500, [], "", none⟩) [] (some 5) none none).1 = .ok none ∧
    TimeEntriesEndpoint.getEntry ⟨⟨1, none, none, none⟩⟩ 0
      (fun _ => ⟨500, [], "", none⟩) [] none none none =
      (.error .valueError, ⟨⟨1, none, none, none⟩⟩, []) ∧
    TimeEntriesEndpoint.getEntry ⟨⟨1, none, none, none⟩⟩ 0
      (fun _ => ⟨500, [], "", none⟩) [] (some (-1)) none none =
      (.error .valueError, ⟨⟨1, none, none, none⟩⟩, []) :=
  ⟨(c9_get_error_policy ⟨⟨1, none, none, none⟩⟩ 0 (fun _ => ⟨500, [], "", none⟩)
      [] 5 none none).1 (by norm_num),
   (c9_get_error_policy ⟨⟨1, none, none, none⟩⟩ 0 (fun _ => ⟨500, [], "", none⟩)
      [] 5 none none).2.1 (by norm_num)
      (handleError ⟨500, [], "", none⟩) rfl,
   (c9_get_error_policy ⟨⟨1, none, none, none⟩⟩ 0 (fun _ => ⟨500, [], "", none⟩)
      [] 5 none none).2.2.1,
   (c9_get_error_policy ⟨⟨1, none, none, none⟩⟩ 0 (fun _ => ⟨500, [], "", none⟩)
      [] (-1) none none).2.2.2 (by norm_num)⟩

/-- C10 (bug evidence): with 2 ids (within the 100 limit) and a
non-empty operations list — the documented use — `patch` reaches
`_request`, whose `clean_params(data)` calls `.items()` on the list and
raises `AttributeError` before any request is issued: the log stays
empty and only the rate limiter's `wait_if_needed` has run. The
over-limit guard itself behaves as documented: 101 ids raise
`ValueError` with nothing touched. -/
theorem c10_patch_clean_params_bug :
    TimeEntriesEndpoint.patchEntries ⟨⟨1, none, none, none⟩⟩ 0
      (fun _ => ⟨200, [], "", some .null⟩) [] 123 [1, 2]
      (.arr [.obj [("op", .str "replace"), ("path", .str "/description"),
        ("value", .str "x")]]) =
      (.error .attributeError, ⟨⟨1, some (0 + 0), none, none⟩⟩, []) ∧
    TimeEntriesEndpoint.patchEntries ⟨⟨1, none, none, none⟩⟩ 0
      (fun _ => ⟨200, [], "", some .null⟩) [] 123
      ((List.range 101).map (fun i => (i : Int))) (.arr []) =
      (.error .valueError, ⟨⟨1, none, none, none⟩⟩, []) := by
  constructor
  · rfl
  · rfl

/-- A header that `headerIntOk` accepts never makes
`int(h) if h else None` raise. -/
theorem optHeaderInt_isOk (hs : List (String × String)) (k : String)
    (h : headerIntOk hs k = true) :
    ∃ v, optHeaderInt (headerGet hs k) = .ok v := by
  unfold headerIntOk at h
  rcases hg : headerGet hs k with _ | s
  · exact ⟨none, rfl⟩
  · rw [hg] at h
    by_cases he : s = ""
    · subst he
      exact ⟨none, by simp [optHeaderInt]⟩
    · simp [he] at h
      obtain ⟨v, hv⟩ := Option.isSome_iff_exists.mp h
      exact ⟨some v, by simp [optHeaderInt, he, pyIntOfString, hv, Except.map]⟩

/-- C1 (amended): for every response with status ≥ 400 whose decoded
error body is a dict (which is automatic when the body fails to decode,
as a message dict is synthesized) and whose quota / `Retry-After`
headers parse as integers where consulted (statuses 402 and 429),
`_handle_error` raises a typed exception following the status table —
validation for 400, auth for 401/403, quota for 402, not-found for 404,
rate-limit for 429, server for 5xx, base otherwise — carrying the
status code and the decoded body. -/
theorem c1_error_taxonomy (r : HttpResponse)
    (hstatus : 400 ≤ r.statusCode)
    (hbody : errorBodyIsDict r = true)
    (hheaders : errorHeadersOk r = true) :
    ∃ exc, handleError r = .toggl exc ∧
      exc.statusCodeOf = some r.statusCode ∧
      exc.responseBodyOf = decodeErrorBody r ∧
      claimKindFor r.statusCode exc = true := by
  have hmsg : ∃ m, errorMessage (decodeErrorBody r) = .ok m := by
    unfold errorBodyIsDict at hbody
    rcases hb : decodeErrorBody r with _ | b | n | s | xs | kvs <;> rw [hb] at hbody
    · exact absurd hbody (by simp)
    · exact absurd hbody (by simp)
    · exact absurd hbody (by simp)
    · exact absurd hbody (by simp)
    · exact absurd hbody (by simp)
    · exact ⟨dictGetD kvs "message" (dictGetD kvs "error" (.str "Unknown error")), rfl⟩
  obtain ⟨m, hm⟩ := hmsg
  simp only [handleError, hm]
  by_cases h400 : r.statusCode = 400
  · refine ⟨.validation m (some r.statusCode) (decodeErrorBody r),
      by rw [if_pos h400], rfl, rfl, ?_⟩
    unfold claimKindFor
    rw [if_pos h400]
    rfl
  · rw [if_neg h400]
    by_cases h401 : r.statusCode = 401
    · refine ⟨.auth m (some r.statusCode) (decodeErrorBody r),
        by rw [if_pos h401], rfl, rfl, ?_⟩
      unfold claimKindFor
      rw [if_neg h400, if_pos (Or.inl h401)]
      rfl
    · rw [if_neg h401]
      by_cases h402 : r.statusCode = 402
      · have hh : (headerIntOk r.headers "X-Toggl-Quota-Remaining" &&
            headerIntOk r.headers "X-Toggl-Quota-Resets-In") = true := by
          unfold errorHeadersOk at hheaders
          rw [h402] at hheaders
          simpa using hheaders
        have hh2 := hh
        simp only [Bool.and_eq_true] at hh2
        obtain ⟨v1, hv1⟩ := optHeaderInt_isOk r.headers "X-Toggl-Quota-Remaining" hh2.1
        obtain ⟨v2, hv2⟩ := optHeaderInt_isOk r.headers "X-Toggl-Quota-Resets-In" hh2.2
        refine ⟨.quota m v1 v2 (some r.statusCode) (decodeErrorBody r),
          by rw [if_pos h402, hv1, hv2], rfl, rfl, ?_⟩
        unfold claimKindFor
        rw [if_neg h400, if_neg (by omega), if_pos h402]
        rfl
      · rw [if_neg h402]
        by_cases h403 : r.statusCode = 403
        · refine ⟨.auth m (some r.statusCode) (decodeErrorBody r),
            by rw [if_pos h403], rfl, rfl, ?_⟩
          unfold claimKindFor
          rw [if_neg h400, if_pos (Or.inr h403)]
          rfl
        · rw [if_neg h403]
          by_cases h404 : r.statusCode = 404
          · refine ⟨.notFound m (some r.statusCode) (decodeErrorBody r),
              by rw [if_pos h404], rfl, rfl, ?_⟩
            unfold claimKindFor
            rw [if_neg h400, if_neg (by omega), if_neg h402, if_pos h404]
            rfl
          · rw [if_neg h404]
            by_cases h429 : r.statusCode = 429
            · have hh : headerIntOk r.headers "Retry-After" = true := by
                unfold errorHeadersOk at hheaders
                rw [h429] at hheaders
                simpa using hheaders
              obtain ⟨v3, hv3⟩ := optHeaderInt_isOk r.headers "Retry-After" hh
              refine ⟨.rateLimit m v3 (some r.statusCode) (decodeErrorBody r),
                by rw [if_pos h429, hv3], rfl, rfl, ?_⟩
              unfold claimKindFor
              rw [if_neg h400, if_neg (by omega), if_neg h402, if_neg h404,
                if_pos h429]
              rfl
            · rw [if_neg h429]
              by_cases h500 : 500 ≤ r.statusCode
              · refine ⟨.server m (some r.statusCode) (decodeErrorBody r),
                  by rw [if_pos h500], rfl, rfl, ?_⟩
                unfold claimKindFor
                rw [if_neg h400, if_neg (by omega), if_neg h402, if_neg h404,
                  if_neg h429, if_pos h500]
                rfl
              · refine ⟨.base m (some r.statusCode) (decodeErrorBody r),
                  by rw [if_neg h500], rfl, rfl, ?_⟩
                unfold claimKindFor
                rw [if_neg h400, if_neg (by omega), if_neg h402, if_neg h404,
                  if_neg h429, if_neg h500]
                rfl

/-- Witness for C1 at a 404 response with a JSON-object body. -/
theorem c1_error_taxonomy_witness :
    ∃ exc, handleError ⟨404, [], "nf",
        some (.obj [("message", .str "not found")])⟩ = .toggl exc ∧
      exc.statusCodeOf =
        some (⟨404, [], "nf", some (.obj [("message", .str "not found")])⟩ :
          HttpResponse).statusCode ∧
      exc.responseBodyOf =
        decodeErrorBody ⟨404, [], "nf", some (.obj [("message", .str "not found")])⟩ ∧
      claimKindFor 404 exc = true :=
  c1_error_taxonomy ⟨404, [], "nf", some (.obj [("message", .str "not found")])⟩
    (by norm_num) rfl rfl

/-- C1 counterexample to the claim as stated: a 400 response whose body
decodes to the JSON string `"oops"`. `_handle_error` then evaluates
`body.get(...)` on a non-dict and raises `AttributeError` — not
`TogglValidationError`, and not any `TogglError` — so the typed mapping
promised for every status ≥ 400 fails here. -/
theorem c1_claim_counterexample :
    handleError ⟨400, [], "\"oops\"", some (.str "oops")⟩ = .attributeError ∧
      (handleError ⟨400, [], "\"oops\"", some (.str "oops")⟩).isToggl = false :=
  ⟨rfl, rfl⟩

theorem pagesConcat_zero (fetch : Int → Int → Option JsonDict) (per_page : Int)
    (items_key : String) (page : Int) :
    pagesConcat fetch per_page items_key page 0 = [] := rfl

theorem pagesConcat_succ (fetch : Int → Int → Option JsonDict) (per_page : Int)
    (items_key : String) (page : Int) (k : Nat) :
    pagesConcat fetch per_page items_key page (k + 1) =
      pageItems fetch per_page items_key page ++
        pagesConcat fetch per_page items_key (page + 1) k := by
  unfold pagesConcat
  rw [List.range_succ_eq_map]
  simp only [List.map_cons, List.flatten_cons, List.map_map]
  congr 1
  · norm_num
  · refine congrArg List.flatten (List.map_congr_left ?_)
    intro i _
    simp only [Function.comp]
    congr 1
    push_cast
    ring

theorem pagesConcat_one (fetch : Int → Int → Option JsonDict) (per_page : Int)
    (items_key : String) (page : Int) :
    pagesConcat fetch per_page items_key page 1 = pageItems fetch per_page items_key page := by
  rw [pagesConcat_succ, pagesConcat_zero, List.append_nil]

/-- The six C2 conclusions for a run that made exactly one fetch call
and stopped through one of the loop's stop conditions. -/
theorem paginateSingleCall (fetch : Int → Int → Option JsonDict) (per_page : Int)
    (items_key : String) (m page pf : Int) (ys : List Json)
    (hpf : pf < m)
    (hitems : ys = pageItems fetch per_page items_key page)
    (hcont : continuesAfter fetch per_page items_key page = false) :
    (⟨ys, 1, none⟩ : PaginateResult).exc = none ∧
      (((⟨ys, 1, none⟩ : PaginateResult).calls : Int) ≤ m - pf) ∧
      0 < (⟨ys, 1, none⟩ : PaginateResult).calls ∧
      (⟨ys, 1, none⟩ : PaginateResult).items =
        pagesConcat fetch per_page items_key page (⟨ys, 1, none⟩ : PaginateResult).calls ∧
      (∀ i : Nat, i + 1 < (⟨ys, 1, none⟩ : PaginateResult).calls →
        continuesAfter fetch per_page items_key (page + i) = true) ∧
      (((⟨ys, 1, none⟩ : PaginateResult).calls : Int) < m - pf →
        continuesAfter fetch per_page items_key
          (page + ((⟨ys, 1, none⟩ : PaginateResult).calls - 1 : Nat)) = false) := by
  refine ⟨rfl, by simp; omega, by norm_num, ?_, ?_, ?_⟩
  · simp only [pagesConcat_one]
    exact hitems
  · intro i hi
    simp at hi
  · intro _
    simpa using hcont

/-- A well-formed response has a list at the items key. -/
theorem itemsVal_arr (items_key : String) (d : JsonDict)
    (h : respWellFormed items_key d = true) :
    ∃ xs, dictGetD d items_key (.arr []) = .arr xs := by
  unfold respWellFormed at h
  rw [Bool.and_eq_true] at h
  rcases hiv : dictGetD d items_key (.arr []) with _ | b | nn | s | xs | kvs <;>
    rw [hiv] at h
  · exact absurd h.1 (by simp)
  · exact absurd h.1 (by simp)
  · exact absurd h.1 (by simp)
  · exact absurd h.1 (by simp)
  · exact ⟨xs, rfl⟩
  · exact absurd h.1 (by simp)

/-- A well-formed response carries `total_count` as absent, `None`, or
an integer. -/
theorem totalCount_cases (items_key : String) (d : JsonDict)
    (h : respWellFormed items_key d = true) :
    dictGet d "total_count" = none ∨ dictGet d "total_count" = some .null ∨
      ∃ t, dictGet d "total_count" = some (.int t) := by
  unfold respWellFormed at h
  rw [Bool.and_eq_true] at h
  rcases htc : dictGet d "total_count" with _ | tc
  · exact Or.inl rfl
  · rcases tc with _ | b | t | s | xs | kvs <;> rw [htc] at h
    · exact Or.inr (Or.inl rfl)
    · exact absurd h.2 (by simp)
    · exact Or.inr (Or.inr ⟨t, rfl⟩)
    · exact absurd h.2 (by simp)
    · exact absurd h.2 (by simp)
    · exact absurd h.2 (by simp)

/-- Fuel-indexed invariant for `auto_paginate` under a positive page
limit and well-formed pages: on termination within fuel, no exception
was raised, the number of fetch calls is between 1 and the remaining
budget, the yielded items are the in-order concatenation of the fetched
pages' items, every page before the last satisfied the continuation
conditions, and a stop before the budget means the last page failed
one of them. -/
theorem autoPaginate_invariant (fetch : Int → Int → Option JsonDict)
    (per_page : Int) (items_key : String) (m : Int)
    (hwf : ∀ p q d, fetch p q = some d → respWellFormed items_key d = true)
    (hm : 0 < m) :
    ∀ (fuel : Nat) (page pf : Int) (r : PaginateResult),
      pf < m →
      autoPaginate fetch page per_page (some m) items_key pf fuel = some r →
      r.exc = none ∧ (r.calls : Int) ≤ m - pf ∧ 0 < r.calls ∧
        r.items = pagesConcat fetch per_page items_key page r.calls ∧
        (∀ i : Nat, i + 1 < r.calls →
          continuesAfter fetch per_page items_key (page + (i : Int)) = true) ∧
        ((r.calls : Int) < m - pf →
          continuesAfter fetch per_page items_key
            (page + ((r.calls - 1 : Nat) : Int)) = false) := by
  intro fuel
  induction fuel with
  | zero =>
    intro page pf r hpf hrun
    exact Option.noConfusion hrun
  | succ fuel ih =>
    intro page pf r hpf hrun
    have hreach : maxPagesReached (some m) pf = false := by
      have h2 : decide (pf ≥ m) = false := decide_eq_false (by omega)
      simp only [maxPagesReached, h2, Bool.and_false]
    simp only [autoPaginate] at hrun
    rw [if_neg (by rw [hreach]; exact Bool.false_ne_true)] at hrun
    split at hrun
    · -- fetch returned None
      rename_i heq
      have hr := Option.some.inj hrun
      subst hr
      exact paginateSingleCall fetch per_page items_key m page pf [] hpf
        (by simp [pageItems, heq]) (by simp [continuesAfter, heq])
    · -- fetch returned a dict d
      rename_i d heq
      split at hrun
      · -- empty dict: falsy response
        rename_i hde
        have hd : d = [] := by simpa using hde
        subst hd
        have hr := Option.some.inj hrun
        subst hr
        exact paginateSingleCall fetch per_page items_key m page pf [] hpf
          (by simp [pageItems, heq, dictGetD, dictGet])
          (by simp [continuesAfter, heq])
      · rename_i hde
        split at hrun
        · -- falsy items value
          rename_i hfal
          obtain ⟨xs, hiv⟩ := itemsVal_arr items_key d (hwf page per_page d heq)
          have hxs : xs = [] := by
            rw [hiv] at hfal
            simpa [Json.truthy] using hfal
          have hr := Option.some.inj hrun
          subst hr
          exact paginateSingleCall fetch per_page items_key m page pf [] hpf
            (by simp [pageItems, heq, hiv, hxs])
            (by simp [continuesAfter, heq, hiv, hxs, Json.truthy])
        · rename_i hfal
          split at hrun
          · -- pyIter raised: impossible on a well-formed page
            rename_i e heqIter
            obtain ⟨xs, hiv⟩ := itemsVal_arr items_key d (hwf page per_page d heq)
            rw [hiv] at heqIter
            simp [pyIter] at heqIter
          · rename_i ys heqIter
            obtain ⟨xs, hiv⟩ := itemsVal_arr items_key d (hwf page per_page d heq)
            have hysxs : ys = xs := by
              rw [hiv] at heqIter
              simpa [pyIter] using heqIter.symm
            split at hrun
            · -- total_count comparison raised: impossible when well-formed
              rename_i e heq2
              rcases totalCount_cases items_key d (hwf page per_page d heq) with
                htc | htc | ⟨t, htc⟩ <;> rw [htc] at heq2 <;> simp [pyGeInt] at heq2
            · -- total_count reached: stop after this page
              rename_i heq2
              rcases totalCount_cases items_key d (hwf page per_page d heq) with
                htc | htc | ⟨t, htc⟩
              · rw [htc] at heq2
                simp at heq2
              · rw [htc] at heq2
                simp at heq2
              · rw [htc] at heq2
                simp only [pyGeInt] at heq2
                have hge : page * per_page ≥ t := by
                  have := Except.ok.inj heq2
                  simpa using this
                have hr := Option.some.inj hrun
                subst hr
                have hd3 : decide (page * per_page < t) = false :=
                  decide_eq_false (by omega)
                exact paginateSingleCall fetch per_page items_key m page pf ys hpf
                  (by rw [hysxs]; simp [pageItems, heq, hiv])
                  (by simp [continuesAfter, heq, htc, hd3])
            · -- total_count not reached
              rename_i heq2
              split at hrun
              · -- has_more falsy: stop after this page
                rename_i hhm
                have hhm2 : (dictGetD d "has_more" (.bool true)).truthy = false := by
                  simpa using hhm
                have hr := Option.some.inj hrun
                subst hr
                exact paginateSingleCall fetch per_page items_key m page pf ys hpf
                  (by rw [hysxs]; simp [pageItems, heq, hiv])
                  (by simp [continuesAfter, heq, hhm2])
              · rename_i hhm
                split at hrun
                · -- fuel exhausted below
                  exact Option.noConfusion hrun
                · -- recursive page
                  rename_i r2 hrec
                  have hr := Option.some.inj hrun
                  subst hr
                  have htruthy : (dictGetD d items_key (.arr [])).truthy = true := by
                    simpa using hfal
                  have hhm2 : (dictGetD d "has_more" (.bool true)).truthy = true := by
                    simpa using hhm
                  have hdne : d.isEmpty = false := by
                    simpa using hde
                  have hcontT : continuesAfter fetch per_page items_key page = true := by
                    unfold continuesAfter
                    rw [heq]
                    rcases totalCount_cases items_key d (hwf page per_page d heq) with
                      htc | htc | ⟨t, htc⟩
                    · simp [htc, hdne, htruthy, hhm2]
                    · simp [htc, hdne, htruthy, hhm2]
                    · have hlt : page * per_page < t := by
                        rw [htc] at heq2
                        simp only [pyGeInt] at heq2
                        have := Except.ok.inj heq2
                        simp at this
                        omega
                      simp [htc, hdne, htruthy, hhm2, hlt]
                  by_cases hpf1 : pf + 1 < m
                  · obtain ⟨ih1, ih2, ih3, ih4, ih5, ih6⟩ :=
                      ih (page + 1) (pf + 1) r2 hpf1 hrec
                    refine ⟨ih1, ?_, ?_, ?_, ?_, ?_⟩
                    · show ((1 + r2.calls : Nat) : Int) ≤ m - pf
                      push_cast
                      push_cast at ih2
                      omega
                    · show 0 < 1 + r2.calls
                      omega
                    · show ys ++ r2.items =
                        pagesConcat fetch per_page items_key page (1 + r2.calls)
                      rw [Nat.add_comm 1 r2.calls, pagesConcat_succ, ih4]
                      congr 1
                      rw [hysxs]
                      simp [pageItems, heq, hiv]
                    · intro i hi
                      cases i with
                      | zero => simpa using hcontT
                      | succ j =>
                        have hj : j + 1 < r2.calls := by
                          simp only [PaginateResult.calls] at hi
                          omega
                        have hc := ih5 j hj
                        rw [show page + ((j + 1 : Nat) : Int) =
                          (page + 1) + (j : Int) from by push_cast; ring]
                        exact hc
                    · intro hlt
                      have hc1 : 1 ≤ r2.calls := ih3
                      have hlt2 : (r2.calls : Int) < m - (pf + 1) := by
                        simp only [PaginateResult.calls] at hlt
                        push_cast at hlt
                        omega
                      have hc := ih6 hlt2
                      rw [show ((1 + r2.calls) - 1 : Nat) = r2.calls from by omega]
                      rw [show page + (r2.calls : Int) =
                        (page + 1) + ((r2.calls - 1 : Nat) : Int) from by omega]
                      exact hc
                  · -- the recursion hit the page limit immediately
                    have hpfm : pf + 1 = m := by omega
                    cases fuel with
                    | zero => exact Option.noConfusion hrec
                    | succ g =>
                      simp only [autoPaginate] at hrec
                      have hreach2 : maxPagesReached (some m) (pf + 1) = true := by
                        have h1 : (m == 0) = false := beq_eq_false_iff_ne.mpr (by omega)
                        have h2 : decide (pf + 1 ≥ m) = true := decide_eq_true (by omega)
                        simp only [maxPagesReached, h1, h2, Bool.not_false, Bool.true_and]
                      rw [hreach2, if_pos rfl] at hrec
                      have hr2 := Option.some.inj hrec
                      subst hr2
                      refine ⟨rfl, ?_, by norm_num, ?_, ?_, ?_⟩
                      · show ((1 + 0 : Nat) : Int) ≤ m - pf
                        push_cast
                        omega
                      · show ys ++ ([] : List Json) =
                          pagesConcat fetch per_page items_key page (1 + 0)
                        rw [List.append_nil, pagesConcat_one, hysxs]
                        simp [pageItems, heq, hiv]
                      · intro i hi
                        simp only [PaginateResult.calls] at hi
                        omega
                      · intro hlt
                        simp only [PaginateResult.calls] at hlt
                        push_cast at hlt
                        omega

/-- C2 (amended): for every page-fetch function returning well-formed
pages, starting page, per_page, and positive `max_pages` limit `m`
(with `max_pages = 0` the limit is falsy and disabled, see the
counterexample), a terminating run of `auto_paginate` calls the fetch
function at most `m` times and at least once; the items it yields are
precisely the in-order concatenation of the fetched pages' items; every
fetched page except the last passed all continuation checks (truthy
response, truthy items, `total_count` not reached, truthy `has_more`);
and when it stopped before the limit, the final page failed one of
those checks. -/
theorem c2_auto_paginate (fetch : Int → Int → Option JsonDict)
    (page per_page m : Int) (items_key : String) (fuel : Nat) (r : PaginateResult)
    (hwf : ∀ p q d, fetch p q = some d → respWellFormed items_key d = true)
    (hm : 0 < m)
    (hrun : autoPaginate fetch page per_page (some m) items_key 0 fuel = some r) :
    r.exc = none ∧ (r.calls : Int) ≤ m ∧ 0 < r.calls ∧
      r.items = pagesConcat fetch per_page items_key page r.calls ∧
      (∀ i : Nat, i + 1 < r.calls →
        continuesAfter fetch per_page items_key (page + (i : Int)) = true) ∧
      ((r.calls : Int) < m →
        continuesAfter fetch per_page items_key
          (page + ((r.calls - 1 : Nat) : Int)) = false) := by
  have h := autoPaginate_invariant fetch per_page items_key m hwf hm fuel page 0 r
    (by omega) hrun
  simpa using h

/-- Witness for C2: the single-page run yields both items with one
fetch call, stopping through `has_more`. -/
theorem c2_auto_paginate_witness :
    (⟨[Json.int 1, Json.int 2], 1, none⟩ : PaginateResult).exc = none ∧
      (((⟨[Json.int 1, Json.int 2], 1, none⟩ : PaginateResult).calls : Int) ≤ 3) ∧
      0 < (⟨[Json.int 1, Json.int 2], 1, none⟩ : PaginateResult).calls ∧
      (⟨[Json.int 1, Json.int 2], 1, none⟩ : PaginateResult).items =
        pagesConcat c2FetchW 50 "items" 1
          (⟨[Json.int 1, Json.int 2], 1, none⟩ : PaginateResult).calls ∧
      (∀ i : Nat, i + 1 < (⟨[Json.int 1, Json.int 2], 1, none⟩ : PaginateResult).calls →
        continuesAfter c2FetchW 50 "items" (1 + (i : Int)) = true) ∧
      ((((⟨[Json.int 1, Json.int 2], 1, none⟩ : PaginateResult).calls : Int) < 3) →
        continuesAfter c2FetchW 50 "items"
          (1 + (((⟨[Json.int 1, Json.int 2], 1, none⟩ : PaginateResult).calls - 1 : Nat) :
            Int)) = false) :=
  c2_auto_paginate c2FetchW 1 50 3 "items" 5 ⟨[Json.int 1, Json.int 2], 1, none⟩
    (by
      intro p q d h
      unfold c2FetchW at h
      by_cases hp : p = 1
      · rw [if_pos hp] at h
        cases Option.some.inj h
        decide
      · rw [if_neg hp] at h
        exact Option.noConfusion h)
    (by norm_num) rfl

/-- C2 counterexample to the claim as stated: with `max_pages = 0`
specified, Python's `if max_pages and ...` treats the limit as falsy
and disables it, so the fetch function is still called once — more than
the claimed bound of zero calls. -/
theorem c2_claim_counterexample :
    autoPaginate (fun _ _ => none) 1 50 (some 0) "items" 0 5 =
      some ⟨[], 1, none⟩ ∧ ¬((1 : Int) ≤ 0) :=
  ⟨rfl, by decide⟩
